import Mathlib

/-!
Verification of the XrdCl client-side message utilities and message handler
(`MessageUtils` in `XrdClMessageUtils.cc` and `XRootDMsgHandler` /
`MsgHandlerRef` in `XrdClXRootDMsgHandler.hh`), shallowly embedded in Lean.

Machine integers of the C++ code (`uint16_t` counters) are modelled as `Nat`
with explicit `% 65536` where overflow matters.  Heap effects (allocation,
`delete`) are modelled by explicit state records that report which resources
are live when a function returns.
-/

namespace XrdCl

/-! ## Status (XrdClStatus.hh)

`Status` carries a severity (`stOK`, `stError`, `stFatal`) and an error code;
`IsOK` tests the severity only. -/

inductive StatusKind where
  | stOK
  | stError
  | stFatal
deriving DecidableEq, Repr

structure Status where
  kind : StatusKind := .stOK
  code : Nat := 0
deriving DecidableEq, Repr

def Status.IsOK (s : Status) : Bool := s.kind = .stOK

/-- Error codes used by the embedded functions.  The numeric values stand in
for the constants of `XrdClStatus.hh`; no theorem depends on the values, only
on their being distinct. -/
def errUninitialized : Nat := 11

def errInvalidArgs : Nat := 9

def errRedirectLimit : Nat := 217

/-! ## URLs and hosts

The claims treat URLs opaquely: a host identifier plus a validity flag
(mirroring `URL::IsValid`). -/

structure URL where
  hostId : String
  isValid : Bool := true
deriving DecidableEq, Repr

abbrev HostList := List URL

/-! ## Chunks and chunk status (XrdClXRootDMsgHandler.hh lines 550-555) -/

structure Chunk where
  offset : Nat
  length : Nat
deriving DecidableEq, Repr

/-- `ChunkStatus() : sizeError(false), done(false)` -/
structure ChunkStatus where
  sizeError : Bool
  done : Bool
deriving DecidableEq, Repr

/-- The default-constructed `ChunkStatus`. -/
def chunkStatusDefault : ChunkStatus := ⟨false, false⟩

/-- `std::vector<T>::resize(n)`: truncates when shrinking, appends
default-constructed elements when growing, and keeps existing elements. -/
def vecResize (xs : List ChunkStatus) (n : Nat) : List ChunkStatus :=
  if n ≤ xs.length then xs.take n
  else xs ++ List.replicate (n - xs.length) chunkStatusDefault

/-! ## MsgHandlerRef (XrdClXRootDMsgHandler.hh lines 80-133)

The cell holds a handler pointer and a `uint16_t` reference count.  A live
cell is a `MsgHandlerRef`; `Free` returns `none` when the cell deletes
itself. -/

structure MsgHandlerRef where
  ref : Option Nat
  count : Nat
deriving DecidableEq, Repr

/-- `MsgHandlerRef( XRootDMsgHandler *handler ) : ref( handler ), count( 1 )` -/
def mkRef (handler : Nat) : MsgHandlerRef := ⟨some handler, 1⟩

/-- `Self(): ++count; return *this` (`count` is `uint16_t`). -/
def MsgHandlerRef.self (c : MsgHandlerRef) : MsgHandlerRef :=
  { c with count := (c.count + 1) % 65536 }

/-- `Invalidate(): ref = 0` -/
def MsgHandlerRef.invalidate (c : MsgHandlerRef) : MsgHandlerRef :=
  { c with ref := none }

/-- `Free(): --count; if( count == 0 ) delete this` (`count` is `uint16_t`,
so the decrement is mod 2^16).  `none` means the cell deallocated itself. -/
def MsgHandlerRef.free (c : MsgHandlerRef) : Option MsgHandlerRef :=
  let n := (c.count + 65535) % 65536
  if n = 0 then none else some { c with count := n }

/-- `k` successive calls to `Free`; a call on an already-deallocated cell
stays deallocated (in C++ it would be a use after free). -/
def freeN : Nat → Option MsgHandlerRef → Option MsgHandlerRef
  | 0, c => c
  | k + 1, some c => freeN k c.free
  | _ + 1, none => none

/-! ## The message handler state (XrdClXRootDMsgHandler.hh)

Only the fields the claims touch are carried; each is initialized exactly as
in the constructor's initializer list (lines 154-204). -/

structure HandlerState where
  hasSessionId : Bool
  expiration : Nat
  redirectAsAnswer : Bool
  hosts : Option HostList
  hasLoadBalancer : Bool
  loadBalancer : Option URL
  chunkList : Option (List Chunk)
  chunkStatus : List ChunkStatus
  redirectCounter : Nat
  followMetalink : Bool
  stateful : Bool
deriving DecidableEq, Repr

/-- The constructor: every field from the initializer list that the claims
mention, plus `pHasSessionId = (msg->GetSessionId() != 0)` from the body. -/
def mkHandler (msgSessionId : Nat) : HandlerState :=
  { hasSessionId := msgSessionId ≠ 0
    expiration := 0
    redirectAsAnswer := false
    hosts := none
    hasLoadBalancer := false
    loadBalancer := none
    chunkList := none
    chunkStatus := []
    redirectCounter := 0
    followMetalink := false
    stateful := false }

def setExpiration (h : HandlerState) (expiration : Nat) : HandlerState :=
  { h with expiration := expiration }

def setRedirectAsAnswer (h : HandlerState) (b : Bool) : HandlerState :=
  { h with redirectAsAnswer := b }

/-- `SetChunkList` (lines 363-370): stores the list and resizes the parallel
status vector to its size (or clears it for a null list). -/
def setChunkList (h : HandlerState) (chunkList : Option (List Chunk)) :
    HandlerState :=
  match chunkList with
  | some l => { h with chunkList := some l
                       chunkStatus := vecResize h.chunkStatus l.length }
  | none => { h with chunkList := none, chunkStatus := [] }

/-- `SetRedirectCounter` (lines 375-378): plain assignment of a `uint16_t`. -/
def setRedirectCounter (h : HandlerState) (c : Nat) : HandlerState :=
  { h with redirectCounter := c % 65536 }

def setFollowMetalink (h : HandlerState) (b : Bool) : HandlerState :=
  { h with followMetalink := b }

def setStateful (h : HandlerState) (b : Bool) : HandlerState :=
  { h with stateful := b }

/-- `SetLoadBalancer` (lines 343-349): ignores an invalid URL. -/
def setLoadBalancer (h : HandlerState) (lb : URL) : HandlerState :=
  if !lb.isValid then h
  else { h with loadBalancer := some lb, hasLoadBalancer := true }

/-- `SetHostList` (lines 354-358): deletes the previous list and installs the
new one. -/
def setHostList (h : HandlerState) (hostList : HostList) : HandlerState :=
  { h with hosts := some hostList }

/-- What the destructor (lines 209-221) frees: the request is freed iff
`pHasSessionId` is unset; the response and partial responses always. -/
structure DtorEffect where
  freesRequest : Bool
  freesResponse : Bool
  callsRefFree : Bool
deriving DecidableEq, Repr

def destructHandler (h : HandlerState) : DtorEffect :=
  { freesRequest := !h.hasSessionId
    freesResponse := true
    callsRefFree := true }

/-! ## CGI parameter maps (`URL::ParamsMap` = `std::map<string,string>`)

The map we embed as an association list; `std::map` keeps one entry per key,
which the theorems take as the `Nodup` hypothesis on the key list. -/

abbrev ParamsMap := List (String × String)

def pmFind : ParamsMap → String → Option String
  | [], _ => none
  | (k', v') :: rest, k => if k' = k then some v' else pmFind rest k

/-- `m[k] = v`: update the entry if the key is present, append it otherwise. -/
def pmSet : ParamsMap → String → String → ParamsMap
  | [], k, v => [(k, v)]
  | (k', v') :: rest, k, v =>
      if k' = k then (k, v) :: rest else (k', v') :: pmSet rest k v

/-- One iteration of the `MergeCGI` loop (lines 312-327) for the entry `kv`
of `cgi2`: replace, or insert when absent, or overwrite an empty value, or
append after a comma. -/
def mergeStep (replace : Bool) (cgi1 : ParamsMap) (kv : String × String) :
    ParamsMap :=
  if replace || (pmFind cgi1 kv.1).isNone then pmSet cgi1 kv.1 kv.2
  else
    match pmFind cgi1 kv.1 with
    | some v =>
        if v = "" then pmSet cgi1 kv.1 kv.2
        else pmSet cgi1 kv.1 (v ++ "," ++ kv.2)
    | none => pmSet cgi1 kv.1 kv.2

/-- `MessageUtils::MergeCGI` (lines 307-328): fold the loop body over the
entries of `cgi2`. -/
def MergeCGI (cgi1 cgi2 : ParamsMap) (replace : Bool) : ParamsMap :=
  cgi2.foldl (mergeStep replace) cgi1

/-! ## Messages

`Message` (XrdClMessage.hh, not among the sources) is a byte buffer whose
leading bytes are the request header plus a human-readable description; the
claims need the header fields, the body bytes and the description. `dlen`
is the length of the data following the 24-byte header. -/

structure MsgHeader where
  streamid : Nat
  requestid : Nat
  dlen : Nat
deriving DecidableEq, Repr

structure Message where
  header : MsgHeader
  body : List Nat
  description : String
deriving DecidableEq, Repr

/-- Request-id constants of the protocol enum (`XProtocol.hh`, not among the
sources).  No theorem depends on the numeric values beyond their being
pairwise distinct. -/
def kXR_chmod : Nat := 3002

def kXR_mkdir : Nat := 3008

def kXR_mv : Nat := 3009

def kXR_open : Nat := 3010

def kXR_read : Nat := 3013

def kXR_rm : Nat := 3015

def kXR_rmdir : Nat := 3016

def kXR_stat : Nat := 3017

def kXR_truncate : Nat := 3028

/-- The request ids whose path/CGI region `RewriteCGIAndPath` rewrites
(the `case` labels of lines 241-248). -/
def rewriteRequests : List Nat :=
  [kXR_chmod, kXR_mkdir, kXR_mv, kXR_open, kXR_rm, kXR_rmdir, kXR_stat,
   kXR_truncate]

/-- Modelled from the spec: the `URL` parsing and serialisation machinery
(`XrdClURL`, not among the sources) used by the matched branch of
`RewriteCGIAndPath`: it turns the old path bytes, the new CGI map, the
replace flag and the optional new path into the new path-with-params bytes. -/
structure UrlOps where
  rewritePathWithParams : List Nat → ParamsMap → Bool → String → List Nat

/-- The `kXR_mv` special case (lines 255-262): skip up to and including the
first space, rewriting only the second (destination) path. -/
def splitAfterSpace (body : List Nat) : List Nat × List Nat :=
  let i := body.indexOf 32
  (body.take (i + 1), body.drop (i + 1))

/-- The matched branch of `RewriteCGIAndPath` (lines 249-298): extract the
path (for `kXR_mv` the part after the space), rewrite it, reallocate the
buffer and update `dlen`. -/
def rewriteMatched (ops : UrlOps) (msg : Message) (newCgi : ParamsMap)
    (replace : Bool) (newPath : String) : Message :=
  let (pre, path) :=
    if msg.header.requestid = kXR_mv then splitAfterSpace msg.body
    else ([], msg.body)
  let newP := ops.rewritePathWithParams path newCgi replace newPath
  let newBody := pre ++ newP
  { msg with
      header := { msg.header with dlen := newBody.length }
      body := newBody }

/-- Modelled from the spec: `XRootDTransport::SetDescription` (not among the
sources) rebuilds the human-readable description of a message; it reads but
does not modify the header and body. -/
def setDescription (descr : Message → String) (msg : Message) : Message :=
  { msg with description := descr msg }

/-- `MessageUtils::RewriteCGIAndPath` (lines 233-302): rewrite the path/CGI
region for the listed request ids, leave the buffer alone otherwise, and
always refresh the description. -/
def RewriteCGIAndPath (ops : UrlOps) (descr : Message → String)
    (msg : Message) (newCgi : ParamsMap) (replace : Bool) (newPath : String) :
    Message :=
  let msg' :=
    if msg.header.requestid ∈ rewriteRequests then
      rewriteMatched ops msg newCgi replace newPath
    else msg
  setDescription descr msg'

/-! ## Extended attribute vectors (`MessageUtils::CreateXAttrVec`) -/

/-- 2 bytes for rc + 1 byte for the terminating null (line 347). -/
def name_overhead : Nat := 3

/-- 4 bytes for the value length (line 349). -/
def value_overhead : Nat := 4

structure XAttrLimits where
  maxVars : Nat
  maxNlen : Nat
  maxVlen : Nat
deriving DecidableEq, Repr

/-- The `xfaLimits` enum of the protocol header (not among the sources); no
theorem depends on the numeric values. -/
def xfaLimits : XAttrLimits := ⟨16, 248, 65536⟩

/-- Modelled from the spec: `ClientFattrRequest::NVecInsert` (protocol
header, not among the sources) writes per name 2 rc bytes, the name bytes
and a terminating null - the 3 bytes of `name_overhead` counted by the
source. -/
def nvecEntry (name : String) : List Nat :=
  [0, 0] ++ name.toList.map Char.toNat ++ [0]

/-- Modelled from the spec: `ClientFattrRequest::VVecInsert` (protocol
header, not among the sources) writes per value a 4-byte length followed by
the value bytes - the 4 bytes of `value_overhead` counted by the source. -/
def vvecEntry (value : String) : List Nat :=
  [value.length / 16777216 % 256, value.length / 65536 % 256,
   value.length / 256 % 256, value.length % 256] ++
  value.toList.map Char.toNat

/-- The name-vector length computed by the first loop (lines 351-356). -/
def xattrNlen (attrs : List (String × String)) : Nat :=
  attrs.foldl (fun a p => a + p.1.length + name_overhead) 0

/-- The value-vector length computed by the first loop (lines 351-356). -/
def xattrVlen (attrs : List (String × String)) : Nat :=
  attrs.foldl (fun a p => a + p.2.length + value_overhead) 0

/-- `MessageUtils::CreateXAttrVec` (lines 333-379) over attribute pairs and
the output byte vector `avec`; returns the status and the vector as left by
the call. -/
def CreateXAttrVec (attrs : List (String × String)) (avec : List Nat) :
    Status × List Nat :=
  if attrs.isEmpty then (⟨.stOK, 0⟩, avec)
  else if attrs.length > xfaLimits.maxVars then
    (⟨.stError, errInvalidArgs⟩, avec)
  else
    let nlen := xattrNlen attrs
    let vlen := xattrVlen attrs
    if nlen > xfaLimits.maxNlen then (⟨.stError, errInvalidArgs⟩, avec)
    else if vlen > xfaLimits.maxVlen then (⟨.stError, errInvalidArgs⟩, avec)
    else
      (⟨.stOK, 0⟩,
       (attrs.map (fun p => nvecEntry p.1)).flatten ++
       (attrs.map (fun p => vvecEntry p.2)).flatten)

/-! ## Sending a message (`MessageUtils::SendMessage`, lines 43-130)

The collaborators (`PostMaster`, `SIDManager`, transport) live behind an
environment record holding the results the code branches on.  The outcome
record reports, besides the returned status, which resources are live when
the function returns: the SIDs still allocated, whether the request buffer
is still marshalled, the handler (if still installed) and the host list. -/

structure MessageSendParams where
  expires : Nat
  followRedirects : Bool
  chunkList : Option (List Chunk)
  redirectLimit : Nat
  stateful : Bool
  loadBalancer : URL
deriving DecidableEq, Repr

structure SendEnv where
  postMasterUp : Bool
  queryTransport : Status
  allocSID : Status × Nat
  sendStatus : Status
deriving DecidableEq, Repr

structure SendOutcome where
  ret : Status
  sidsHeld : List Nat
  marshalled : Bool
  handler : Option HandlerState
  hostListLive : Bool
deriving DecidableEq, Repr

def SendMessage (env : SendEnv) (url : URL) (msgSessionId : Nat)
    (p : MessageSendParams) : SendOutcome :=
  if !env.postMasterUp then
    ⟨⟨.stError, errUninitialized⟩, [], false, none, false⟩
  else if !env.queryTransport.IsOK then
    ⟨env.queryTransport, [], false, none, false⟩
  else if !(env.allocSID.1).IsOK then
    ⟨env.allocSID.1, [], false, none, false⟩
  else
    let sid := env.allocSID.2
    let h := mkHandler msgSessionId
    let h := setExpiration h p.expires
    let h := setRedirectAsAnswer h (!p.followRedirects)
    let h := setChunkList h p.chunkList
    let h := setRedirectCounter h p.redirectLimit
    let h := setStateful h p.stateful
    let h := if p.loadBalancer.isValid then setLoadBalancer h p.loadBalancer
             else h
    let h := setHostList h [url]
    if !env.sendStatus.IsOK then
      ⟨env.sendStatus, [], false, none, false⟩
    else
      ⟨⟨.stOK, 0⟩, [sid], true, some h, true⟩

/-! ## The redirect branch and the handler state machine

`XrdClXRootDMsgHandler.cc` is not among the sources; the response controller
and the request lifecycle are modelled from the spec. -/

inductive RedirectOutcome where
  | resend (counter : Nat)
  | terminalRedirectLimit
deriving DecidableEq, Repr

/-- Modelled from the spec: the redirect branch of the response controller
(`XrdClXRootDMsgHandler.cc`, not among the sources).  "Decrement the
redirect counter; if zero, terminal error `errRedirectLimit`"; otherwise the
request is resent carrying the decremented counter. -/
def handleRedirect (counter : Nat) : RedirectOutcome :=
  let c := counter - 1
  if c = 0 then .terminalRedirectLimit else .resend c

/-- Modelled from the spec: on every redirect the controller appends the new
target to the handler's host list ("append to HostList", spec 4.5), so the
final list is the ordered sequence of URLs contacted. -/
def extendHostList (hosts : HostList) (newUrl : URL) : HostList :=
  hosts ++ [newUrl]

/-- The events the handler can observe after a successful send.  The last
five are the terminal conditions named by the spec: final response, terminal
error, deadline expiry, stream-fatal, cancellation. -/
inductive HEvent where
  | oksofar
  | rawData
  | redirect
  | waitReq
  | timerFired
  | finalResponse
  | terminalError
  | deadlineExpiry
  | streamFatal
  | cancellation
deriving DecidableEq, Repr

def HEvent.isTerminal : HEvent → Bool
  | .finalResponse => true
  | .terminalError => true
  | .deadlineExpiry => true
  | .streamFatal => true
  | .cancellation => true
  | _ => false

/-- The phases of spec 4.9 that matter for the callback discipline. -/
inductive HPhase where
  | inFlight
  | readingRaw
  | awaitingMore
  | waiting
  | terminal
deriving DecidableEq, Repr

structure MachineState where
  phase : HPhase
  counter : Nat
deriving DecidableEq, Repr

/-- Modelled from the spec: one transition of the handler state machine
(spec 4.9, 4.5, 5).  The Bool reports whether the transition invoked the
user's ResponseHandler: exactly the transitions into Terminal, which the
spec ties to callback + self-destruction; Terminal absorbs every further
event without a callback. -/
def hstep (s : MachineState) (e : HEvent) : MachineState × Bool :=
  if s.phase = .terminal then (s, false)
  else
    match e with
    | .finalResponse => ({ s with phase := .terminal }, true)
    | .terminalError => ({ s with phase := .terminal }, true)
    | .deadlineExpiry => ({ s with phase := .terminal }, true)
    | .streamFatal => ({ s with phase := .terminal }, true)
    | .cancellation => ({ s with phase := .terminal }, true)
    | .redirect =>
        match handleRedirect s.counter with
        | .resend c => ({ phase := .inFlight, counter := c }, false)
        | .terminalRedirectLimit => ({ s with phase := .terminal }, true)
    | .oksofar => ({ s with phase := .awaitingMore }, false)
    | .rawData => ({ s with phase := .readingRaw }, false)
    | .waitReq => ({ s with phase := .waiting }, false)
    | .timerFired => ({ s with phase := .inFlight }, false)

/-- Run the machine over an event sequence; the second component counts the
ResponseHandler invocations along the way. -/
def run : MachineState → List HEvent → MachineState × Nat
  | s, [] => (s, 0)
  | s, e :: es =>
      let (s', fired) := hstep s e
      let (s'', n) := run s' es
      (s'', (if fired then 1 else 0) + n)

def callbackCount (s : MachineState) (es : List HEvent) : Nat :=
  (run s es).2

/-- Modelled from the spec: subsequent operations on the chunk status vector
mark individual chunks (`done`, `sizeError`) in place and never change its
size. -/
def markChunk : List ChunkStatus → Nat → (ChunkStatus → ChunkStatus) →
    List ChunkStatus
  | [], _, _ => []
  | x :: xs, 0, f => f x :: xs
  | x :: xs, i + 1, f => x :: markChunk xs i f

/-! ## Helper lemmas -/

theorem vecResize_length (xs : List ChunkStatus) (n : Nat) :
    (vecResize xs n).length = n := by
  unfold vecResize
  split
  · simp [List.length_take]; omega
  · simp; omega

theorem vecResize_take (xs : List ChunkStatus) (n : Nat) :
    (vecResize xs n).take xs.length = xs.take n := by
  unfold vecResize
  split
  · rw [List.take_take]
    congr 1
    omega
  · rw [List.take_left, List.take_of_length_le (by omega)]

theorem markChunk_length (v : List ChunkStatus) :
    ∀ (i : Nat) (f : ChunkStatus → ChunkStatus),
      (markChunk v i f).length = v.length := by
  induction v with
  | nil => intro i f; rfl
  | cons x xs ih =>
      intro i f
      cases i with
      | zero => rfl
      | succ i => simp [markChunk, ih]

theorem free_eq (r : Option Nat) (n : Nat) (h1 : 2 ≤ n) (h2 : n < 65536) :
    MsgHandlerRef.free ⟨r, n⟩ = some ⟨r, n - 1⟩ := by
  have hmod : (n + 65535) % 65536 = n - 1 := by omega
  simp only [MsgHandlerRef.free, hmod]
  rw [if_neg (by omega)]

theorem free_one (r : Option Nat) : MsgHandlerRef.free ⟨r, 1⟩ = none := by
  have hmod : (1 + 65535) % 65536 = 0 := by omega
  simp [MsgHandlerRef.free, hmod]

theorem self_eq (r : Option Nat) (cnt : Nat) (h : cnt < 65535) :
    MsgHandlerRef.self ⟨r, cnt⟩ = ⟨r, cnt + 1⟩ := by
  show (⟨r, (cnt + 1) % 65536⟩ : MsgHandlerRef) = ⟨r, cnt + 1⟩
  rw [Nat.mod_eq_of_lt (by omega)]

theorem free_cases (r : Option Nat) (cnt : Nat) (h1 : 0 < cnt)
    (h2 : cnt < 65536) :
    (MsgHandlerRef.free ⟨r, cnt⟩ = none ↔ cnt = 1) ∧
    (1 < cnt → MsgHandlerRef.free ⟨r, cnt⟩ = some ⟨r, cnt - 1⟩) := by
  constructor
  · constructor
    · intro hf
      by_contra hne
      rw [free_eq r cnt (by omega) h2] at hf
      exact Option.noConfusion hf
    · intro hone
      subst hone
      exact free_one r
  · intro hlt
    exact free_eq r cnt (by omega) h2

theorem freeN_live (k : Nat) : ∀ (n : Nat) (r : Option Nat), k < n →
    n < 65536 → freeN k (some ⟨r, n⟩) = some ⟨r, n - k⟩ := by
  induction k with
  | zero => intro n r _ _; rfl
  | succ k ih =>
      intro n r h1 h2
      have hstep : freeN (k + 1) (some (⟨r, n⟩ : MsgHandlerRef)) =
          freeN k (MsgHandlerRef.free ⟨r, n⟩) := rfl
      have harith : n - 1 - k = n - (k + 1) := by omega
      rw [hstep, free_eq r n (by omega) h2,
          ih (n - 1) r (by omega) (by omega), harith]

theorem freeN_dead (n : Nat) : ∀ (r : Option Nat), 0 < n → n < 65536 →
    freeN n (some ⟨r, n⟩) = none := by
  induction n with
  | zero => intro r h _; omega
  | succ n ih =>
      intro r _ h2
      have hstep : freeN (n + 1) (some (⟨r, n + 1⟩ : MsgHandlerRef)) =
          freeN n (MsgHandlerRef.free ⟨r, n + 1⟩) := rfl
      rcases Nat.eq_zero_or_pos n with h0 | hpos
      · subst h0
        rw [hstep, free_one]
        rfl
      · rw [hstep, free_eq r (n + 1) (by omega) h2]
        simpa using ih r hpos (by omega)

/-! ## Claim theorems -/

/-- C2: if `MessageUtils::SendMessage` has allocated a SID and the PostMaster
`Send` then fails, the function releases the SID, unmarshalls the request,
destroys the handler and the host list, and returns the send error: no SID
stays allocated and no handler stays installed on the error branch. -/
theorem c2_send_failure_releases_everything (env : SendEnv) (url : URL)
    (msgSessionId : Nat) (p : MessageSendParams)
    (hpm : env.postMasterUp = true)
    (hq : env.queryTransport.IsOK = true)
    (ha : (env.allocSID.1).IsOK = true)
    (hs : env.sendStatus.IsOK = false) :
    SendMessage env url msgSessionId p =
      ⟨env.sendStatus, [], false, none, false⟩ := by
  simp [SendMessage, hpm, hq, ha, hs]

/-- Witness for C2 at a concrete environment whose `Send` fails. -/
theorem c2_witness :
    SendMessage ⟨true, ⟨.stOK, 0⟩, (⟨.stOK, 0⟩, 5), ⟨.stError, 3⟩⟩
        ⟨"origin", true⟩ 0
        ⟨9, true, none, 16, false, ⟨"", false⟩⟩ =
      ⟨⟨.stError, 3⟩, [], false, none, false⟩ :=
  c2_send_failure_releases_everything _ _ _ _ rfl rfl rfl rfl

/-- C3: the redirect counter installed by `SetRedirectCounter` strictly
decreases across redirect transitions, a resend never carries counter zero
(and, the counter being a `uint16_t` modelled as `Nat`, it can never be
negative), and a redirect arriving at counter zero yields the terminal
`errRedirectLimit` outcome instead of a resend. -/
theorem c3_redirect_counter (h : HandlerState) (c c' : Nat) :
    (setRedirectCounter h c).redirectCounter = c % 65536 ∧
    (handleRedirect c = .resend c' → c' < c ∧ 0 < c') ∧
    handleRedirect 0 = .terminalRedirectLimit ∧
    handleRedirect c ≠ .resend 0 := by
  refine ⟨rfl, ?_, rfl, ?_⟩
  · intro hr
    unfold handleRedirect at hr
    by_cases hz : c - 1 = 0
    · simp [hz] at hr
    · simp [hz] at hr
      omega
  · unfold handleRedirect
    by_cases hz : c - 1 = 0 <;> simp [hz]

/-- Witness for C3: a redirect at counter 5 resends with 4 < 5; a redirect
at counter 0 is the terminal `errRedirectLimit`. -/
theorem c3_witness :
    (4 < 5 ∧ 0 < 4) ∧ handleRedirect 0 = .terminalRedirectLimit := by
  have h := c3_redirect_counter (mkHandler 0) 5 4
  exact ⟨h.2.1 (by decide), h.2.2.1⟩

/-- C5: the handler destructor frees the request message iff the message
carried no session identifier when the handler was constructed; with a
non-zero session id the request buffer is left untouched. -/
theorem c5_dtor_frees_request_iff_no_session (msgSessionId : Nat) :
    (destructHandler (mkHandler msgSessionId)).freesRequest = true ↔
      msgSessionId = 0 := by
  simp [destructHandler, mkHandler]

/-- Witness for C5: a session-less message's request is freed, a message
with session id 1 keeps its request buffer. -/
theorem c5_witness :
    (destructHandler (mkHandler 0)).freesRequest = true ∧
    ¬(destructHandler (mkHandler 1)).freesRequest = true :=
  ⟨(c5_dtor_frees_request_iff_no_session 0).2 rfl,
   fun h => Nat.one_ne_zero ((c5_dtor_frees_request_iff_no_session 1).1 h)⟩

/-- C6: a `MsgHandlerRef` cell starts with count 1; `Self` increments the
count and returns the same cell; `Invalidate` nulls the handler pointer
leaving the count (and the allocation) alone; `Free` decrements and
deallocates exactly when the count reaches zero; hence after the handler
invalidates and each of the `n` holders frees once, the cell stays allocated
through the first `n - 1` frees with a null pointer (so no access through it
reaches the handler) and is deallocated exactly at the `n`-th. -/
theorem c6_msg_handler_ref_lifecycle (hid n : Nat) (c : MsgHandlerRef) :
    mkRef hid = ⟨some hid, 1⟩ ∧
    (c.count < 65535 → c.self = ⟨c.ref, c.count + 1⟩) ∧
    c.invalidate = ⟨none, c.count⟩ ∧
    (0 < c.count → c.count < 65536 →
      ((c.free = none ↔ c.count = 1) ∧
       (1 < c.count → c.free = some ⟨c.ref, c.count - 1⟩))) ∧
    (0 < n → n < 65536 →
      freeN n (some (MsgHandlerRef.invalidate ⟨some hid, n⟩)) = none ∧
      ∀ k, k < n →
        freeN k (some (MsgHandlerRef.invalidate ⟨some hid, n⟩)) =
          some ⟨none, n - k⟩) := by
  refine ⟨rfl, ?_, ?_, ?_, ?_⟩
  · intro hc
    obtain ⟨r, cnt⟩ := c
    exact self_eq r cnt hc
  · obtain ⟨r, cnt⟩ := c
    rfl
  · intro h1 h2
    obtain ⟨r, cnt⟩ := c
    exact free_cases r cnt h1 h2
  · intro hn1 hn2
    exact ⟨freeN_dead n none hn1 hn2,
           fun k hk => freeN_live k n none hk hn2⟩

/-- Witness for C6: with three holders, after `Invalidate` the cell survives
two frees (pointer null) and the third deallocates it. -/
theorem c6_witness :
    freeN 3 (some (MsgHandlerRef.invalidate ⟨some 7, 3⟩)) = none ∧
    freeN 2 (some (MsgHandlerRef.invalidate ⟨some 7, 3⟩)) =
      some ⟨none, 1⟩ := by
  have h := c6_msg_handler_ref_lifecycle 7 3 ⟨some 7, 2⟩
  exact ⟨(h.2.2.2.2 (by decide) (by decide)).1,
         (h.2.2.2.2 (by decide) (by decide)).2 2 (by decide)⟩

/-- The redirect controller extends the host list by appending each target
in order. -/
theorem foldl_extendHostList (targets : List URL) :
    ∀ acc : HostList, targets.foldl extendHostList acc = acc ++ targets := by
  induction targets with
  | nil => intro acc; simp
  | cons t ts ih => intro acc; simp [extendHostList, ih]

/-- C7: a successful `SendMessage` installs a handler whose host list is
exactly the one-element sequence holding the origin URL (set before the
message is sent), so a request answered directly by the origin completes
with `HostList = [origin]`; appending each redirect target in order then
makes the final list `origin :: targets`, the ordered sequence of URLs
contacted. -/
theorem c7_hostlist_origin (env : SendEnv) (url : URL) (msgSessionId : Nat)
    (p : MessageSendParams)
    (hpm : env.postMasterUp = true)
    (hq : env.queryTransport.IsOK = true)
    (ha : (env.allocSID.1).IsOK = true)
    (hs : env.sendStatus.IsOK = true) :
    (∃ h, (SendMessage env url msgSessionId p).handler = some h ∧
          h.hosts = some [url]) ∧
    ∀ targets : List URL,
      List.foldl extendHostList [url] targets = url :: targets := by
  constructor
  · simp [SendMessage, hpm, hq, ha, hs, setHostList]
  · intro targets
    simp [foldl_extendHostList]

/-- Witness for C7 at a concrete successful send. -/
theorem c7_witness :
    (∃ h, (SendMessage ⟨true, ⟨.stOK, 0⟩, (⟨.stOK, 0⟩, 5), ⟨.stOK, 0⟩⟩
            ⟨"origin", true⟩ 0 ⟨9, true, none, 16, false, ⟨"", false⟩⟩).handler
          = some h ∧ h.hosts = some [⟨"origin", true⟩]) ∧
    List.foldl extendHostList [⟨"origin", true⟩] [⟨"host2", true⟩] =
      [⟨"origin", true⟩, ⟨"host2", true⟩] := by
  have h := c7_hostlist_origin ⟨true, ⟨.stOK, 0⟩, (⟨.stOK, 0⟩, 5), ⟨.stOK, 0⟩⟩
    ⟨"origin", true⟩ 0 ⟨9, true, none, 16, false, ⟨"", false⟩⟩ rfl rfl rfl rfl
  exact ⟨h.1, h.2 [⟨"host2", true⟩]⟩

/-- C8 counterexample: `SetChunkList` does not reinitialize status entries
that already exist - `std::vector::resize` keeps surviving elements - so on
a handler whose status vector already holds a `done` entry, the entry is not
reset to the default `{sizeError=false, done=false}`. -/
theorem c8_counterexample :
    (setChunkList { mkHandler 0 with chunkStatus := [⟨false, true⟩] }
        (some [⟨0, 4096⟩])).chunkStatus ≠ [chunkStatusDefault] := by
  decide

/-- C8 amended: after `SetChunkList` the status vector is parallel to the
chunk list - exactly `n` entries for a non-null list of `n` chunks, empty
for a null list; entries beyond the previous vector's length are
default-initialized (`sizeError=false`, `done=false`); in particular on a
freshly constructed handler (the state at every call site in this code) all
`n` entries are the default; entries surviving the resize keep their old
flags (the surviving prefix of the result equals the surviving prefix of
the previous vector); and marking individual chunks preserves the size. -/
theorem c8_chunk_status_parallel (h : HandlerState) (l : List Chunk)
    (v : List ChunkStatus) (i : Nat) (f : ChunkStatus → ChunkStatus) :
    (setChunkList h (some l)).chunkStatus.length = l.length ∧
    (setChunkList h none).chunkStatus = [] ∧
    (h.chunkStatus = [] →
      (setChunkList h (some l)).chunkStatus =
        List.replicate l.length chunkStatusDefault) ∧
    (h.chunkStatus.length < l.length →
      (setChunkList h (some l)).chunkStatus.drop h.chunkStatus.length =
        List.replicate (l.length - h.chunkStatus.length) chunkStatusDefault) ∧
    (setChunkList h (some l)).chunkStatus.take h.chunkStatus.length =
      h.chunkStatus.take l.length ∧
    (markChunk v i f).length = v.length := by
  refine ⟨?_, rfl, ?_, ?_, ?_, markChunk_length v i f⟩
  · simp [setChunkList, vecResize_length]
  · intro hempty
    simp [setChunkList, vecResize, hempty]
  · intro hlt
    simp only [setChunkList, vecResize]
    rw [if_neg (by omega)]
    rw [List.drop_left]
  · simp only [setChunkList]
    exact vecResize_take h.chunkStatus l.length

/-- Witness for C8: on a fresh handler a two-chunk list yields two default
status entries. -/
theorem c8_witness :
    (setChunkList (mkHandler 0) (some [⟨0, 1⟩, ⟨2, 3⟩])).chunkStatus =
      List.replicate 2 chunkStatusDefault := by
  have h := c8_chunk_status_parallel (mkHandler 0) [⟨0, 1⟩, ⟨2, 3⟩] [] 0 id
  simpa using h.2.2.1 rfl

/-- C10: for a message whose request id is none of `kXR_chmod`, `kXR_mkdir`,
`kXR_mv`, `kXR_open`, `kXR_rm`, `kXR_rmdir`, `kXR_stat`, `kXR_truncate`,
`RewriteCGIAndPath` leaves the header (including `dlen`) and the body bytes
unchanged, whatever CGI map, replace flag and new path are supplied (only
the description is refreshed). -/
theorem c10_rewrite_frame_effect (ops : UrlOps) (descr : Message → String)
    (msg : Message) (newCgi : ParamsMap) (replace : Bool) (newPath : String)
    (hid : msg.header.requestid ∉ rewriteRequests) :
    (RewriteCGIAndPath ops descr msg newCgi replace newPath).header =
      msg.header ∧
    (RewriteCGIAndPath ops descr msg newCgi replace newPath).body =
      msg.body := by
  simp [RewriteCGIAndPath, setDescription, hid]

/-! ### MergeCGI lemmas -/

theorem pmFind_pmSet_same (m : ParamsMap) (k v : String) :
    pmFind (pmSet m k v) k = some v := by
  induction m with
  | nil => simp [pmSet, pmFind]
  | cons kv rest ih =>
      obtain ⟨k', v'⟩ := kv
      by_cases h : k' = k
      · subst h
        simp [pmSet, pmFind]
      · simp [pmSet, pmFind, h, ih]

theorem pmFind_pmSet_other (m : ParamsMap) (k k' v : String) (h : k' ≠ k) :
    pmFind (pmSet m k' v) k = pmFind m k := by
  induction m with
  | nil => simp [pmSet, pmFind, h]
  | cons kv rest ih =>
      obtain ⟨k1, v1⟩ := kv
      by_cases h1 : k1 = k'
      · subst h1
        simp [pmSet, pmFind, h]
      · by_cases h2 : k1 = k <;>
          simp [pmSet, pmFind, h1, h2, ih, Ne.symm h]

theorem pmFind_eq_none_of_not_mem (m : ParamsMap) (k : String)
    (h : k ∉ m.map Prod.fst) : pmFind m k = none := by
  induction m with
  | nil => rfl
  | cons kv rest ih =>
      obtain ⟨k1, v1⟩ := kv
      simp only [List.map_cons, List.mem_cons] at h
      push_neg at h
      have hne : k1 ≠ k := fun he => h.1 he.symm
      simp [pmFind, hne, ih h.2]

/-- The value the merge loop leaves at a key of `cgi2`, as a function of the
key's previous binding. -/
def mergeVal (replace : Bool) (old : Option String) (v2 : String) : String :=
  if replace then v2
  else
    match old with
    | none => v2
    | some v1 => if v1 = "" then v2 else v1 ++ "," ++ v2

theorem pmFind_mergeStep_same (replace : Bool) (acc : ParamsMap)
    (k v2 : String) :
    pmFind (mergeStep replace acc (k, v2)) k =
      some (mergeVal replace (pmFind acc k) v2) := by
  rcases hf : pmFind acc k with _ | v1
  · cases replace <;>
      simp [mergeStep, mergeVal, hf, pmFind_pmSet_same]
  · cases replace <;> by_cases hv : v1 = "" <;>
      simp [mergeStep, mergeVal, hf, hv, pmFind_pmSet_same]

theorem pmFind_mergeStep_other (replace : Bool) (acc : ParamsMap)
    (k1 v1 k : String) (h : k1 ≠ k) :
    pmFind (mergeStep replace acc (k1, v1)) k = pmFind acc k := by
  have hset : ∀ w, pmFind (pmSet acc k1 w) k = pmFind acc k := fun w =>
    pmFind_pmSet_other acc k k1 w h
  rcases hf : pmFind acc k1 with _ | v
  · cases replace <;> simp [mergeStep, hf, hset]
  · cases replace <;> by_cases hv : v = "" <;>
      simp [mergeStep, hf, hv, hset]

theorem pmFind_MergeCGI (replace : Bool) (cgi2 : ParamsMap) :
    ∀ (cgi1 : ParamsMap) (k : String), (cgi2.map Prod.fst).Nodup →
    pmFind (MergeCGI cgi1 cgi2 replace) k =
      match pmFind cgi2 k with
      | some v2 => some (mergeVal replace (pmFind cgi1 k) v2)
      | none => pmFind cgi1 k := by
  induction cgi2 with
  | nil => intro cgi1 k _; rfl
  | cons kv rest ih =>
      intro cgi1 k hnd
      obtain ⟨k1, v1⟩ := kv
      rw [List.map_cons, List.nodup_cons] at hnd
      obtain ⟨hk1, hnd'⟩ := hnd
      have hfold : MergeCGI cgi1 ((k1, v1) :: rest) replace =
          MergeCGI (mergeStep replace cgi1 (k1, v1)) rest replace := rfl
      rw [hfold, ih (mergeStep replace cgi1 (k1, v1)) k hnd']
      by_cases hk : k1 = k
      · subst hk
        have hrest : pmFind rest k1 = none :=
          pmFind_eq_none_of_not_mem rest k1 hk1
        simp [pmFind, hrest, pmFind_mergeStep_same]
      · simp [pmFind, hk, pmFind_mergeStep_other replace cgi1 k1 v1 k hk]

/-- C4: for every key `k` of `cgi2`, `MergeCGI` with `replace=true` leaves
`cgi2`'s value at `k`; with `replace=false` it leaves `cgi2`'s value when
`k` is absent from `cgi1` or bound to the empty string there, and otherwise
`cgi1`'s value, a comma, then `cgi2`'s value; keys present only in `cgi1`
keep their original value in either mode.  (`std::map` holds one entry per
key, whence the `Nodup` hypothesis.) -/
theorem c4_mergeCGI_per_key (cgi1 cgi2 : ParamsMap) (k v2 : String)
    (hnd : (cgi2.map Prod.fst).Nodup) :
    (pmFind cgi2 k = some v2 →
      pmFind (MergeCGI cgi1 cgi2 true) k = some v2 ∧
      pmFind (MergeCGI cgi1 cgi2 false) k =
        some (match pmFind cgi1 k with
              | none => v2
              | some v1 => if v1 = "" then v2 else v1 ++ "," ++ v2)) ∧
    (pmFind cgi2 k = none →
      ∀ replace, pmFind (MergeCGI cgi1 cgi2 replace) k = pmFind cgi1 k) := by
  constructor
  · intro h2
    constructor
    · rw [pmFind_MergeCGI true cgi2 cgi1 k hnd, h2]
      rfl
    · rw [pmFind_MergeCGI false cgi2 cgi1 k hnd, h2]
      rcases pmFind cgi1 k with _ | v1 <;> rfl
  · intro h2 replace
    rw [pmFind_MergeCGI replace cgi2 cgi1 k hnd, h2]

/-- Witness for C4: merging `[a=2]` into `[a=1]` appends with
`replace=false` and overwrites with `replace=true`. -/
theorem c4_witness :
    pmFind (MergeCGI [("a", "1")] [("a", "2")] false) "a" = some "1,2" ∧
    pmFind (MergeCGI [("a", "1")] [("a", "2")] true) "a" = some "2" := by
  have h := c4_mergeCGI_per_key [("a", "1")] [("a", "2")] "a" "2"
    (by simp) |>.1 (by simp [pmFind])
  refine ⟨?_, h.1⟩
  rw [h.2]
  simp [pmFind]

/-! ### CreateXAttrVec lemmas -/

theorem nvecEntry_length (s : String) :
    (nvecEntry s).length = s.length + name_overhead := by
  have h : s.toList.length = s.length := rfl
  simp only [nvecEntry, name_overhead, List.length_append, List.length_map,
             List.length_cons, List.length_nil, h]
  omega

theorem vvecEntry_length (s : String) :
    (vvecEntry s).length = s.length + value_overhead := by
  have h : s.toList.length = s.length := rfl
  simp only [vvecEntry, value_overhead, List.length_append, List.length_map,
             List.length_cons, List.length_nil, h]
  omega

theorem xattrNlen_acc (l : List (String × String)) :
    ∀ a : Nat, l.foldl (fun acc p => acc + p.1.length + name_overhead) a =
      a + xattrNlen l := by
  induction l with
  | nil =>
      intro a
      simp [xattrNlen]
  | cons p rest ih =>
      intro a
      have h1 : (p :: rest).foldl
          (fun acc q => acc + q.1.length + name_overhead) a =
          rest.foldl (fun acc q => acc + q.1.length + name_overhead)
            (a + p.1.length + name_overhead) := rfl
      have h2 : xattrNlen (p :: rest) =
          rest.foldl (fun acc q => acc + q.1.length + name_overhead)
            (0 + p.1.length + name_overhead) := rfl
      rw [h1, h2, ih, ih]
      omega

theorem xattrVlen_acc (l : List (String × String)) :
    ∀ a : Nat, l.foldl (fun acc p => acc + p.2.length + value_overhead) a =
      a + xattrVlen l := by
  induction l with
  | nil =>
      intro a
      simp [xattrVlen]
  | cons p rest ih =>
      intro a
      have h1 : (p :: rest).foldl
          (fun acc q => acc + q.2.length + value_overhead) a =
          rest.foldl (fun acc q => acc + q.2.length + value_overhead)
            (a + p.2.length + value_overhead) := rfl
      have h2 : xattrVlen (p :: rest) =
          rest.foldl (fun acc q => acc + q.2.length + value_overhead)
            (0 + p.2.length + value_overhead) := rfl
      rw [h1, h2, ih, ih]
      omega

theorem xattrNlen_cons (p : String × String) (rest : List (String × String)) :
    xattrNlen (p :: rest) = p.1.length + name_overhead + xattrNlen rest := by
  have h2 : xattrNlen (p :: rest) =
      rest.foldl (fun acc q => acc + q.1.length + name_overhead)
        (0 + p.1.length + name_overhead) := rfl
  rw [h2, xattrNlen_acc]
  omega

theorem xattrVlen_cons (p : String × String) (rest : List (String × String)) :
    xattrVlen (p :: rest) = p.2.length + value_overhead + xattrVlen rest := by
  have h2 : xattrVlen (p :: rest) =
      rest.foldl (fun acc q => acc + q.2.length + value_overhead)
        (0 + p.2.length + value_overhead) := rfl
  rw [h2, xattrVlen_acc]
  omega

theorem xattr_nlen_eq (attrs : List (String × String)) :
    ((attrs.map fun p => nvecEntry p.1).flatten).length = xattrNlen attrs := by
  induction attrs with
  | nil => rfl
  | cons p rest ih =>
      simp only [List.map_cons, List.flatten_cons, List.length_append,
                 nvecEntry_length, xattrNlen_cons, ih]

theorem xattr_vlen_eq (attrs : List (String × String)) :
    ((attrs.map fun p => vvecEntry p.2).flatten).length = xattrVlen attrs := by
  induction attrs with
  | nil => rfl
  | cons p rest ih =>
      simp only [List.map_cons, List.flatten_cons, List.length_append,
                 vvecEntry_length, xattrVlen_cons, ih]

/-- C9: `CreateXAttrVec` returns OK leaving the output vector untouched on
an empty attribute list; it returns `errInvalidArgs` exactly when the
attribute count exceeds `kXR_faMaxVars`, or the total name length (each
name plus 3 bytes of overhead) exceeds `kXR_faMaxNlen`, or the total value
length (each value plus 4 bytes of overhead) exceeds `kXR_faMaxVlen`; and
otherwise it returns OK with the output vector resized to exactly the name
vector length plus the value vector length. -/
theorem c9_create_xattr_vec (attrs : List (String × String))
    (avec : List Nat) :
    (attrs = [] → CreateXAttrVec attrs avec = (⟨.stOK, 0⟩, avec)) ∧
    ((CreateXAttrVec attrs avec).1 = ⟨.stError, errInvalidArgs⟩ ↔
      (attrs.length > xfaLimits.maxVars ∨
       xattrNlen attrs > xfaLimits.maxNlen ∨
       xattrVlen attrs > xfaLimits.maxVlen)) ∧
    ((CreateXAttrVec attrs avec).1.IsOK = true → attrs ≠ [] →
      (CreateXAttrVec attrs avec).2.length =
        xattrNlen attrs + xattrVlen attrs) := by
  by_cases he : attrs = []
  · subst he
    refine ⟨fun _ => rfl, ?_, fun _ h => absurd rfl h⟩
    simp [CreateXAttrVec, xattrNlen, xattrVlen, xfaLimits, errInvalidArgs]
  · have hne : attrs.isEmpty = false := by
      simpa [List.isEmpty_iff] using he
    refine ⟨fun h => absurd h he, ?_, ?_⟩
    · by_cases h1 : attrs.length > xfaLimits.maxVars
      · simp [CreateXAttrVec, hne, h1]
      · by_cases h2 : xattrNlen attrs > xfaLimits.maxNlen
        · simp [CreateXAttrVec, hne, h1, h2]
        · by_cases h3 : xattrVlen attrs > xfaLimits.maxVlen
          · simp [CreateXAttrVec, hne, h1, h2, h3]
          · simp [CreateXAttrVec, hne, h1, h2, h3, Status.IsOK]
    · intro hok _
      by_cases h1 : attrs.length > xfaLimits.maxVars
      · simp [CreateXAttrVec, hne, h1, Status.IsOK] at hok
      · by_cases h2 : xattrNlen attrs > xfaLimits.maxNlen
        · simp [CreateXAttrVec, hne, h1, h2, Status.IsOK] at hok
        · by_cases h3 : xattrVlen attrs > xfaLimits.maxVlen
          · simp [CreateXAttrVec, hne, h1, h2, h3, Status.IsOK] at hok
          · have hres : (CreateXAttrVec attrs avec).2 =
                (attrs.map fun p => nvecEntry p.1).flatten ++
                (attrs.map fun p => vvecEntry p.2).flatten := by
              simp [CreateXAttrVec, hne, h1, h2, h3]
            rw [hres, List.length_append, xattr_nlen_eq, xattr_vlen_eq]

/-- Witness for C9 at one attribute `("a", "b")`: within all limits, the
vector is resized to (1+3) + (1+4) = 9 bytes. -/
theorem c9_witness :
    (CreateXAttrVec [("a", "b")] []).2.length = 9 := by
  have h := c9_create_xattr_vec [("a", "b")] []
  have hlen := h.2.2 (by decide) (by decide)
  rw [hlen]
  decide

/-! ### State machine lemmas -/

theorem run_terminal (es : List HEvent) :
    ∀ s : MachineState, s.phase = .terminal → run s es = (s, 0) := by
  induction es with
  | nil => intro s _; rfl
  | cons e es ih =>
      intro s h
      have hstep_eq : hstep s e = (s, false) := by simp [hstep, h]
      simp [run, hstep_eq, ih s h]

theorem hstep_fired_iff (s : MachineState) (e : HEvent)
    (h : s.phase ≠ .terminal) :
    ((hstep s e).2 = true ↔ (hstep s e).1.phase = .terminal) := by
  unfold hstep
  rw [if_neg h]
  cases e
  case redirect =>
    cases hr : handleRedirect s.counter with
    | resend c => simp [hr]
    | terminalRedirectLimit => simp [hr]
  all_goals simp

theorem hstep_terminal_event (s : MachineState) (e : HEvent)
    (h : s.phase ≠ .terminal) (he : e.isTerminal = true) :
    hstep s e = ({ s with phase := .terminal }, true) := by
  unfold hstep
  rw [if_neg h]
  cases e <;> simp_all [HEvent.isTerminal]

theorem callbackCount_le_one (es : List HEvent) :
    ∀ s : MachineState, callbackCount s es ≤ 1 := by
  induction es with
  | nil => intro s; simp [callbackCount, run]
  | cons e es ih =>
      intro s
      by_cases h : s.phase = .terminal
      · simp [callbackCount, run_terminal (e :: es) s h]
      · rcases hs : hstep s e with ⟨s', fired⟩
        cases fired
        · simpa [callbackCount, run, hs] using ih s'
        · have hterm : s'.phase = .terminal := by
            have h2 := (hstep_fired_iff s e h).1
            rw [hs] at h2
            exact h2 rfl
          simp [callbackCount, run, hs, run_terminal es s' hterm]

theorem callbackCount_eq_one (es : List HEvent) :
    ∀ s : MachineState, s.phase ≠ .terminal →
      (∃ e ∈ es, e.isTerminal = true) → callbackCount s es = 1 := by
  induction es with
  | nil =>
      intro s _ hex
      simp at hex
  | cons e es ih =>
      intro s h hex
      rcases hs : hstep s e with ⟨s', fired⟩
      cases fired
      · have he_not : e.isTerminal = false := by
          by_contra hne
          rw [Bool.not_eq_false] at hne
          have := hstep_terminal_event s e h hne
          rw [hs] at this
          exact Bool.noConfusion (congrArg Prod.snd this)
        have hs' : s'.phase ≠ .terminal := by
          intro hterm
          have h2 := (hstep_fired_iff s e h).2
          rw [hs] at h2
          exact Bool.noConfusion (h2 hterm)
        have hex' : ∃ e' ∈ es, e'.isTerminal = true := by
          rcases hex with ⟨e', hmem, hterm'⟩
          rcases List.mem_cons.mp hmem with heq | hmem'
          · subst heq
            rw [he_not] at hterm'
            exact Bool.noConfusion hterm'
          · exact ⟨e', hmem', hterm'⟩
        simpa [callbackCount, run, hs] using ih s' hs' hex'
      · have hterm : s'.phase = .terminal := by
          have h2 := (hstep_fired_iff s e h).1
          rw [hs] at h2
          exact h2 rfl
        simp [callbackCount, run, hs, run_terminal es s' hterm]

/-- C1: over every sequence of events - final response, terminal error,
deadline expiry, stream-fatal, cancellation, interleaved with any
non-terminal activity (partial responses, raw data, redirects, waits) -
the ResponseHandler fires at most once from any live handler state, and
exactly once as soon as the sequence contains one of the terminal events:
no path invokes it twice, and every successfully sent request reaches
exactly one invocation. -/
theorem c1_response_handler_exactly_once (s : MachineState)
    (events : List HEvent) (h : s.phase ≠ .terminal) :
    callbackCount s events ≤ 1 ∧
      ((∃ e ∈ events, e.isTerminal = true) →
        callbackCount s events = 1) :=
  ⟨callbackCount_le_one events s, callbackCount_eq_one events s h⟩

/-- Witness for C1: a request that sees a partial response, a redirect and
then a final response (followed by a spurious further error) invokes the
ResponseHandler exactly once. -/
theorem c1_witness :
    callbackCount ⟨.inFlight, 3⟩
      [.oksofar, .redirect, .finalResponse, .terminalError] = 1 :=
  (c1_response_handler_exactly_once ⟨.inFlight, 3⟩
    [.oksofar, .redirect, .finalResponse, .terminalError]
    (by decide)).2 (by decide)

/-- Witness for C10 at a concrete `kXR_read` message. -/
theorem c10_witness :
    (RewriteCGIAndPath ⟨fun p _ _ _ => p⟩ (fun _ => "d")
        ⟨⟨1, kXR_read, 2⟩, [47, 97], ""⟩ [] true "x").header =
      ⟨1, kXR_read, 2⟩ ∧
    (RewriteCGIAndPath ⟨fun p _ _ _ => p⟩ (fun _ => "d")
        ⟨⟨1, kXR_read, 2⟩, [47, 97], ""⟩ [] true "x").body = [47, 97] :=
  c10_rewrite_frame_effect _ _ _ _ _ _ (by decide)

end XrdCl
